import Mathlib

/-!
Verification of the news ingestion pipeline in
`Transforming News Data Into Actionable Insights/kibana_app.py`.

The embedding models Python dictionaries as association lists over a JSON-like
value type, Python truthiness, the fixed-format `datetime.strptime` parser,
`round(_, 4)` (half-to-even on exact rationals), the country resolver
`get_iso_code`, the pure transformation `transform_news_article`, the
Elasticsearch sink `index_document`, the page generator `_fetch_news_pages`
and the orchestration loop `NewsIngestionPipeline.run`.  Raised Python
exceptions are modelled as `Except.error`; log output is modelled as a list
of strings carried in the result.
-/

set_option linter.unusedVariables false

/-- Wall-clock timestamp at second precision, the payload of a Python
`datetime` object as produced by `datetime.strptime(s, "%Y-%m-%d %H:%M:%S")`. -/
structure DateTime where
  year : Nat
  month : Nat
  day : Nat
  hour : Nat
  minute : Nat
  second : Nat
deriving DecidableEq, Repr

/-- Python `datetime` ordering: lexicographic on the six fields. -/
def DateTime.lt (a b : DateTime) : Bool :=
  decide (a.year < b.year ∨ (a.year = b.year ∧ (a.month < b.month ∨ (a.month = b.month ∧
    (a.day < b.day ∨ (a.day = b.day ∧ (a.hour < b.hour ∨ (a.hour = b.hour ∧
    (a.minute < b.minute ∨ (a.minute = b.minute ∧ a.second < b.second))))))))))

/-- Mixed-radix encoding of a timestamp; on field-bounded timestamps it is
strictly monotone for the lexicographic order. -/
def DateTime.key (t : DateTime) : Nat :=
  ((((t.year * 13 + t.month) * 32 + t.day) * 24 + t.hour) * 60 + t.minute) * 60 + t.second

/-- Field bounds guaranteed for every timestamp a Python `datetime` can hold
(the constructor validates them). -/
def DateTime.valid (t : DateTime) : Prop :=
  t.month ≤ 12 ∧ t.day ≤ 31 ∧ t.hour ≤ 23 ∧ t.minute ≤ 59 ∧ t.second ≤ 59

def pad2 (n : Nat) : String :=
  if n < 10 then "0" ++ toString n else toString n

def pad4 (n : Nat) : String :=
  if n < 10 then "000" ++ toString n
  else if n < 100 then "00" ++ toString n
  else if n < 1000 then "0" ++ toString n
  else toString n

/-- `strftime("%Y-%m-%d %H:%M:%S")`. -/
def DateTime.format (t : DateTime) : String :=
  pad4 t.year ++ "-" ++ pad2 t.month ++ "-" ++ pad2 t.day ++ " " ++
    pad2 t.hour ++ ":" ++ pad2 t.minute ++ ":" ++ pad2 t.second

/-- JSON-like Python values: the shapes a field of an upstream article record
can take (numbers as exact rationals), plus `datetime` objects. -/
inductive Value where
  | null
  | str (s : String)
  | num (q : ℚ)
  | list (vs : List Value)
  | dict (kvs : List (String × Value))
  | date (t : DateTime)

/-- Python truthiness of a value. -/
def truthy : Value → Bool
  | .null => false
  | .str s => !s.isEmpty
  | .num q => if q = 0 then false else true
  | .list vs => !vs.isEmpty
  | .dict kvs => !kvs.isEmpty
  | .date _ => true

/-- Python `==` between a value and a string literal: only equal strings
compare equal. -/
def Value.eqStr : Value → String → Bool
  | .str s, t => s == t
  | _, _ => false

/-- A Python dictionary with string keys, modelled as an association list
(first binding of a key is the visible one). -/
abbrev Dict := List (String × Value)

/-- `d.get(k)` / `d[k]` lookup. -/
def dictGet : Dict → String → Option Value
  | [], _ => none
  | (k1, v) :: rest, k => if k1 = k then some v else dictGet rest k

/-- `d.get(k, default)`. -/
def dictGetD (m : Dict) (k : String) (dflt : Value) : Value :=
  (dictGet m k).getD dflt

/-- `d[k] = v`: replace the binding in place, or append a new one. -/
def dictSet : Dict → String → Value → Dict
  | [], k, v => [(k, v)]
  | (k1, v1) :: rest, k, v =>
      if k1 = k then (k, v) :: rest else (k1, v1) :: dictSet rest k v

/-- `d.pop(k, None)`: remove the binding for `k`. -/
def dictPop (m : Dict) (k : String) : Dict :=
  m.filter (fun kv => kv.1 != k)

/-- `needle` occurs as a contiguous substring of the character list. -/
def charListSub : List Char → List Char → Bool
  | needle, [] => needle.isEmpty
  | needle, c :: rest => needle.isPrefixOf (c :: rest) || charListSub needle rest

/-- String containment. -/
def strContains (hay needle : String) : Bool :=
  charListSub needle.data hay.data

/-! ### The fixed-format date parser

`datetime.strptime(s, "%Y-%m-%d %H:%M:%S")`: `%Y` matches exactly four
digits, the other directives one or two digits; the whole string must be
consumed; the `datetime` constructor then validates the field ranges
(month 1-12, day 1-daysInMonth, hour 0-23, minute/second 0-59, year ≥ 1). -/

def digitsToNat (ds : List Char) : Nat :=
  ds.foldl (fun a c => a * 10 + (c.toNat - 48)) 0

/-- Take at most `n` leading digits. -/
def takeDigits : Nat → List Char → List Char × List Char
  | 0, cs => ([], cs)
  | _ + 1, [] => ([], [])
  | n + 1, c :: cs =>
      if c.isDigit then
        let p := takeDigits n cs
        (c :: p.1, p.2)
      else ([], c :: cs)

/-- A one-or-two digit numeric field (`%m`, `%d`, `%H`, `%M`, `%S`). -/
def parseField2 (cs : List Char) : Option (Nat × List Char) :=
  let p := takeDigits 2 cs
  if p.1.isEmpty then none else some (digitsToNat p.1, p.2)

/-- The four-digit year field (`%Y`). -/
def parseYear4 (cs : List Char) : Option (Nat × List Char) :=
  let p := takeDigits 4 cs
  if p.1.length = 4 then some (digitsToNat p.1, p.2) else none

def expectChar (c : Char) : List Char → Option (List Char)
  | [] => none
  | d :: cs => if d = c then some cs else none

def isLeapYear (y : Nat) : Bool :=
  (y % 4 == 0 && y % 100 != 0) || y % 400 == 0

def daysInMonth (y m : Nat) : Nat :=
  if m = 2 then (if isLeapYear y then 29 else 28)
  else if m = 4 ∨ m = 6 ∨ m = 9 ∨ m = 11 then 30
  else 31

/-- `datetime.strptime(s, "%Y-%m-%d %H:%M:%S")`; `none` models the
`ValueError` raised on a string that does not match the format. -/
def datetime_strptime (s : String) : Option DateTime :=
  match parseYear4 s.data with
  | none => none
  | some (y, cs1) =>
    match expectChar '-' cs1 with
    | none => none
    | some cs2 =>
      match parseField2 cs2 with
      | none => none
      | some (mo, cs3) =>
        match expectChar '-' cs3 with
        | none => none
        | some cs4 =>
          match parseField2 cs4 with
          | none => none
          | some (d, cs5) =>
            match expectChar ' ' cs5 with
            | none => none
            | some cs6 =>
              match parseField2 cs6 with
              | none => none
              | some (h, cs7) =>
                match expectChar ':' cs7 with
                | none => none
                | some cs8 =>
                  match parseField2 cs8 with
                  | none => none
                  | some (mi, cs9) =>
                    match expectChar ':' cs9 with
                    | none => none
                    | some cs10 =>
                      match parseField2 cs10 with
                      | none => none
                      | some (sec, cs11) =>
                        if cs11.isEmpty ∧ 1 ≤ y ∧ 1 ≤ mo ∧ mo ≤ 12 ∧ 1 ≤ d ∧
                            d ≤ daysInMonth y mo ∧ h ≤ 23 ∧ mi ≤ 59 ∧ sec ≤ 59 then
                          some ⟨y, mo, d, h, mi, sec⟩
                        else none

/-! ### Rounding

Python `round` uses round-half-to-even; the embedding works on exact
rationals. -/

/-- Round to the nearest integer, ties to even. -/
def roundHalfEven (q : ℚ) : ℤ :=
  let f : ℤ := Int.floor q
  let r : ℚ := q - f
  if r < 1/2 then f
  else if 1/2 < r then f + 1
  else if f % 2 = 0 then f else f + 1

/-- Python `round(q, 4)`. -/
def roundTo4 (q : ℚ) : ℚ := (roundHalfEven (q * 10000) : ℚ) / 10000

/-! ### Country resolution (`get_iso_code`)

`pycountry.countries.lookup` is an external lookup table (spec §1, §4.1); it
is a parameter `generalLookup` returning `none` where the library raises
`LookupError`.  The resolver returns the resolved code together with the
warnings it logs. -/

/-- The static override table `COUNTRY_FALLBACKS`. -/
def COUNTRY_FALLBACKS : List (String × String) :=
  [("brunei", "BN"), ("cape verde", "CV"), ("dr congo", "CD"),
   ("ivory coast", "CI"), ("kosovo", "XK"), ("macau", "MO"),
   ("macedonia", "MK"), ("micronesia", "FM"), ("russia", "RU"),
   ("turkey", "TR"), ("vatican", "VA")]

def lookupFallback (s : String) : Option String :=
  (COUNTRY_FALLBACKS.find? (fun p => p.1 = s)).map (fun p => p.2)

/-- Python `str.lower()` (ASCII case folding, character by character; this
is `String.toLower` written over the character list). -/
def str_lower (s : String) : String := String.mk (s.data.map Char.toLower)

/-- `get_iso_code(country_name)`: non-strings resolve to `None`; otherwise
lower-case, consult the fallback table, then the general lookup; on no match
log a warning and return `None`. -/
def get_iso_code (generalLookup : String → Option String) (country_name : Value) :
    Option String × List String :=
  match country_name with
  | .str s =>
    let lower := str_lower s
    match lookupFallback lower with
    | some code => (some code, [])
    | none =>
      match generalLookup lower with
      | some code => (some code, [])
      | none =>
        (none, ["Could not find ISO code for country: \x27" ++ s ++ "\x27"])
  | _ => (none, [])

/-! ### Article transformation (`transform_news_article`) -/

/-- `article.get('country', [None])[0]`: first element of the country field;
subscripting an empty list raises `IndexError`, subscripting a non-subscriptable
value raises `TypeError`, subscripting a string yields its first character. -/
def firstCountryElem (article : Dict) : Except String Value :=
  match dictGetD article "country" (.list [.null]) with
  | .list [] => .error "IndexError: list index out of range"
  | .list (v :: _) => .ok v
  | .str s =>
    match s.data with
    | [] => .error "IndexError: string index out of range"
    | c :: _ => .ok (.str (String.mk [c]))
  | _ => .error "TypeError: object is not subscriptable"

def optCodeToValue : Option String → Value
  | none => .null
  | some s => .str s

/-- `round(x, 4)` on a sentiment sub-score: only numbers round, anything else
raises `TypeError`. -/
def roundScore : Value → Except String ℚ
  | .num q => .ok (roundTo4 q)
  | _ => .error "TypeError: type not supported by round"

/-- The unrolled `for key in ['positive', 'negative', 'neutral']` loop that
writes the flattened fields `sentiment_score_<key>` with default `0.0`. -/
def setScores (kvs : List (String × Value)) (a : Dict) : Except String Dict :=
  match roundScore (dictGetD kvs "positive" (.num 0)) with
  | .error e => .error e
  | .ok p =>
    match roundScore (dictGetD kvs "negative" (.num 0)) with
    | .error e => .error e
    | .ok n =>
      match roundScore (dictGetD kvs "neutral" (.num 0)) with
      | .error e => .error e
      | .ok u =>
        .ok (dictSet (dictSet (dictSet a "sentiment_score_positive" (.num p))
              "sentiment_score_negative" (.num n)) "sentiment_score_neutral" (.num u))

/-- `get_iso_code(country_name) if country_name else None`, with the warning
it logs. -/
def isoOf (generalLookup : String → Option String) (cn : Value) :
    Option String × List String :=
  if truthy cn then get_iso_code generalLookup cn else (none, [])

/-- The record after the `dateandtime`, `country_code` and `country` writes
of `transform_news_article`. -/
def baseRecord (generalLookup : String → Option String) (now : DateTime)
    (article : Dict) (cn : Value) : Dict :=
  dictSet (dictSet (dictSet article "dateandtime" (.date now))
    "country_code" (optCodeToValue (isoOf generalLookup cn).1)) "country" cn

/-- `transform_news_article(article)`.  `now` is the wall clock read by
`datetime.now()` (truncated to seconds by the strftime/strptime round trip);
the result carries the transformed record and the warnings logged by
`get_iso_code`; `.error` models a raised exception. -/
def transform_news_article (generalLookup : String → Option String) (now : DateTime)
    (article : Dict) : Except String (Dict × List String) :=
  match firstCountryElem article with
  | .error e => .error e
  | .ok country_name =>
    let sentiment := dictGetD article "sentiment" .null
    let a3 := baseRecord generalLookup now article country_name
    let sentiment_stats := dictGetD a3 "sentiment_stats" (.dict [])
    let flat : Except String Dict :=
      if truthy sentiment && truthy sentiment_stats &&
          (Value.eqStr sentiment "positive" || Value.eqStr sentiment "negative" ||
           Value.eqStr sentiment "neutral") then
        match sentiment_stats with
        | .dict kvs => setScores kvs a3
        | _ => .error "AttributeError: object has no attribute get"
      else .ok a3
    match flat with
    | .error e => .error e
    | .ok a4 => .ok (dictPop a4 "sentiment_stats", (isoOf generalLookup country_name).2)

/-! ### The document sink (`ElasticsearchService.index_document`)

The Elasticsearch client raises `ApiError` subclasses for HTTP-level
failures and other exceptions (`ConnectionError`, `ConnectionTimeout`,
transport errors) otherwise; the outcome of one `es_client.index` call is an
oracle value.  The `except` clause of `index_document` catches exactly
`es_exceptions.ApiError`. -/

inductive StoreOutcome where
  | ok
  | apiError (msg : String)
  | otherError (msg : String)

/-- `index_document(index_name, document)`: returns the logs it writes, or
an uncaught exception. -/
def index_document (index_name : String) (outcome : StoreOutcome) :
    Except String (List String) :=
  match outcome with
  | .ok => .ok []
  | .apiError e =>
      .ok ["Failed to index document into \x27" ++ index_name ++ "\x27: " ++ e]
  | .otherError e => .error e

/-! ### The page generator (`NewsIngestionPipeline._fetch_news_pages`)

The upstream client is modelled as a script: the sequence of results it
would return to the successive requests (`err` models a raised
`NewsdataException` or other exception).  The generator returns the pages it
yields together with the number of upstream requests it issued. -/

inductive ApiResult where
  | ok (r : Dict)
  | err (msg : String)

/-- `page = response.get('nextPage'); if not page: break` — the walk
continues only when the next-cursor field is present and truthy. -/
def truthyCursor (r : Dict) : Bool :=
  truthy (dictGetD r "nextPage" .null)

/-- `_fetch_news_pages`: the budget is checked before issuing a request;
after a response is yielded the cursor is checked; any exception from the
client logs and ends the sequence.  Returns (yielded pages, requests issued). -/
def fetch_news_pages (fetchAll : Bool) (numPages : Nat) :
    Nat → List ApiResult → List Dict × Nat
  | _, [] => ([], 0)
  | pagesFetched, res :: rest =>
    if fetchAll = false ∧ numPages ≤ pagesFetched then ([], 0)
    else
      match res with
      | .err _ => ([], 1)
      | .ok r =>
        if truthyCursor r then
          let t := fetch_news_pages fetchAll numPages (pagesFetched + 1) rest
          (r :: t.1, t.2 + 1)
        else ([r], 1)

/-! ### The run loop (`NewsIngestionPipeline.run`) -/

/-- The run-scoped mutable state: the statistics accumulator plus the log
stream written so far. -/
structure RunState where
  total : Nat
  earliest : Option DateTime
  logs : List String

/-- The collaborators of one run: the external country lookup, the wall
clock, the destination index name and the store outcome oracle (outcome of
`es_client.index` on a given document). -/
structure Env where
  generalLookup : String → Option String
  now : DateTime
  elastic_index : String
  store : Dict → StoreOutcome

/-- One update step of the earliest-date statistic. -/
def stepEarliest (acc : Option DateTime) : Option DateTime → Option DateTime
  | none => acc
  | some d =>
    match acc with
    | none => some d
    | some e => if DateTime.lt d e then some d else acc

/-- The earliest-date tracking block of `run`: read `pubDate` from the
transformed record; when truthy it must parse with the fixed format
(`strptime` raises `ValueError` otherwise, `TypeError` on non-strings);
update the minimum when the new date predates it. -/
def trackDate (s : RunState) (t : Dict) : Except String RunState :=
  let pv := dictGetD t "pubDate" .null
  if truthy pv then
    match pv with
    | .str ds =>
      match datetime_strptime ds with
      | some d =>
        .ok (if (match s.earliest with
                 | none => true
                 | some e => DateTime.lt d e) then { s with earliest := some d } else s)
      | none => .error "ValueError: time data does not match format"
    | _ => .error "TypeError: strptime argument must be str"
  else .ok s

/-- The per-article body of the loop in `run`: transform, store, track the
date, then count the article as processed. -/
def processArticle (env : Env) (s : RunState) (a : Dict) : Except String RunState :=
  match transform_news_article env.generalLookup env.now a with
  | .error e => .error e
  | .ok (t, tlogs) =>
    match index_document env.elastic_index (env.store t) with
    | .error e => .error e
    | .ok ilogs =>
      match trackDate { s with logs := s.logs ++ tlogs ++ ilogs } t with
      | .error e => .error e
      | .ok s2 => .ok { s2 with total := s2.total + 1 }

/-- `for article in articles`: each element must be a mapping — iterating a
page whose elements are not mappings raises inside `transform_news_article`
(`AttributeError` on the first `.get`). -/
def processArticles (env : Env) : RunState → List Value → Except String RunState
  | s, [] => .ok s
  | s, v :: rest =>
    match v with
    | .dict a =>
      match processArticle env s a with
      | .error e => .error e
      | .ok s1 => processArticles env s1 rest
    | _ => .error "AttributeError: object has no attribute get"

/-- `response_page.get('status') == 'success'`. -/
def successStatus (p : Dict) : Bool :=
  Value.eqStr (dictGetD p "status" .null) "success"

/-- One iteration of the page loop in `run`: a non-success page only logs; a
success page with falsy `results` only logs; otherwise the article list is
iterated (iterating a truthy non-list raises: its elements - characters of a
string, keys of a mapping - are not mappings, and a number is not iterable). -/
def processPage (env : Env) (s : RunState) (p : Dict) : Except String RunState :=
  if successStatus p then
    let articles := dictGetD p "results" (.list [])
    if truthy articles = false then
      .ok { s with logs := s.logs ++ ["Received a successful response with 0 articles."] }
    else
      match articles with
      | .list vs => processArticles env s vs
      | .str _ => .error "AttributeError: object has no attribute get"
      | .dict _ => .error "AttributeError: object has no attribute get"
      | _ => .error "TypeError: object is not iterable"
  else
    .ok { s with logs := s.logs ++ ["API response indicated failure."] }

/-- The page loop of `run` over the yielded pages. -/
def processPages (env : Env) : RunState → List Dict → Except String RunState
  | s, [] => .ok s
  | s, p :: rest =>
    match processPage env s p with
    | .error e => .error e
    | .ok s1 => processPages env s1 rest

def initialRunState : RunState :=
  { total := 0, earliest := none, logs := ["Starting news ingestion pipeline..."] }

/-- The final `if earliest_article_date:` report — one log line when a date
was recorded, nothing otherwise. -/
def earliestReport : Option DateTime → List String
  | some d => ["Earliest article found was published at: " ++ DateTime.format d]
  | none => []

/-- `NewsIngestionPipeline.run` applied to the pages yielded by the
generator: process every page, then emit the final statistics; an exception
raised inside the loop propagates and skips the final report. -/
def NewsIngestionPipeline.run (env : Env) (pages : List Dict) : Except String RunState :=
  match processPages env initialRunState pages with
  | .error e => .error e
  | .ok s =>
    .ok { s with
          logs := s.logs ++
            ["News ingestion pipeline finished.",
             "Total articles processed: " ++ toString s.total] ++
            earliestReport s.earliest }

/-! ### Spec-side derived notions -/

/-- The fields `transform_news_article` writes or removes; every other field
passes through untouched. -/
def transformKeys : List String :=
  ["country", "country_code", "dateandtime", "sentiment_stats",
   "sentiment_score_positive", "sentiment_score_negative", "sentiment_score_neutral"]

/-- The publish date an article contributes to earliest-date tracking: a
truthy string `pubDate` that parses with the fixed format (anything falsy
contributes nothing; a truthy non-parsing value aborts the run instead). -/
def articleDate (a : Dict) : Option DateTime :=
  match dictGetD a "pubDate" .null with
  | .str ds => if ds.isEmpty then none else datetime_strptime ds
  | _ => none

def valueDate : Value → Option DateTime
  | .dict a => articleDate a
  | _ => none

/-- The article list of a page as the run loop sees it (empty for a
non-success page or a page whose `results` is not a list). -/
def pageArticles (p : Dict) : List Value :=
  if successStatus p then
    match dictGetD p "results" (.list []) with
    | .list vs => vs
    | _ => []
  else []

def countArticles (ps : List Dict) : Nat :=
  (ps.map (fun p => (pageArticles p).length)).sum

def pagesDates (ps : List Dict) : List DateTime :=
  (ps.map (fun p => (pageArticles p).filterMap valueDate)).flatten

/-- The earliest-date accumulator over a list of parsed dates, folding the
per-article update step. -/
def foldEarliest (acc : Option DateTime) (ds : List DateTime) : Option DateTime :=
  ds.foldl (fun a d => stepEarliest a (some d)) acc

/-- The flattening guard of `transform_news_article`, read off the input
record: a truthy sentiment label equal to one of the three categories, and a
truthy (present, non-empty) `sentiment_stats` value. -/
def flattenGuard (article : Dict) : Bool :=
  let sentiment := dictGetD article "sentiment" .null
  let sentiment_stats := dictGetD article "sentiment_stats" (.dict [])
  truthy sentiment && truthy sentiment_stats &&
    (Value.eqStr sentiment "positive" || Value.eqStr sentiment "negative" ||
     Value.eqStr sentiment "neutral")

/-! ### Dictionary lemmas -/

theorem dictGet_set_self (m : Dict) (k : String) (v : Value) :
    dictGet (dictSet m k v) k = some v := by
  induction m with
  | nil => simp [dictSet, dictGet]
  | cons kv rest ih =>
    obtain ⟨k1, v1⟩ := kv
    by_cases h : k1 = k <;> simp [dictSet, dictGet, h, ih]

theorem dictGet_set_ne (m : Dict) (k k' : String) (v : Value) (h : k ≠ k') :
    dictGet (dictSet m k v) k' = dictGet m k' := by
  induction m with
  | nil => simp [dictSet, dictGet, h]
  | cons kv rest ih =>
    obtain ⟨k1, v1⟩ := kv
    by_cases h1 : k1 = k
    · subst h1
      simp [dictSet, dictGet, h]
    · simp [dictSet, dictGet, h1, ih]

theorem dictGet_pop_self (m : Dict) (k : String) :
    dictGet (dictPop m k) k = none := by
  induction m with
  | nil => rfl
  | cons kv rest ih =>
    obtain ⟨k1, v1⟩ := kv
    unfold dictPop at ih ⊢
    rw [List.filter_cons]
    by_cases h : k1 = k
    · simpa [h] using ih
    · simpa [h, dictGet] using ih

theorem dictGet_pop_ne (m : Dict) (k k' : String) (h : k ≠ k') :
    dictGet (dictPop m k) k' = dictGet m k' := by
  induction m with
  | nil => rfl
  | cons kv rest ih =>
    obtain ⟨k1, v1⟩ := kv
    unfold dictPop at ih ⊢
    rw [List.filter_cons]
    by_cases h1 : k1 = k
    · subst h1
      have h2 : ¬ k1 = k' := h
      simpa [h2, dictGet] using ih
    · simp only [show ((k1, v1).1 != k) = true by simpa using h1, if_pos]
      by_cases h2 : k1 = k'
      · simp [dictGet, h2]
      · simpa [dictGet, h2] using ih

theorem dictGetD_set_ne (m : Dict) (k k' : String) (v dflt : Value) (h : k ≠ k') :
    dictGetD (dictSet m k v) k' dflt = dictGetD m k' dflt := by
  unfold dictGetD
  rw [dictGet_set_ne _ _ _ _ h]

theorem baseRecord_get_ne (lk : String → Option String) (now : DateTime) (a : Dict)
    (cn : Value) (k : String) (h1 : k ≠ "dateandtime") (h2 : k ≠ "country_code")
    (h3 : k ≠ "country") :
    dictGet (baseRecord lk now a cn) k = dictGet a k := by
  unfold baseRecord
  rw [dictGet_set_ne _ _ _ _ (Ne.symm h3), dictGet_set_ne _ _ _ _ (Ne.symm h2),
    dictGet_set_ne _ _ _ _ (Ne.symm h1)]

theorem setScores_get_ne (kvs : List (String × Value)) (a b : Dict) (k : String)
    (h : setScores kvs a = .ok b)
    (h1 : k ≠ "sentiment_score_positive") (h2 : k ≠ "sentiment_score_negative")
    (h3 : k ≠ "sentiment_score_neutral") :
    dictGet b k = dictGet a k := by
  unfold setScores at h
  split at h
  · exact Except.noConfusion h
  · split at h
    · exact Except.noConfusion h
    · split at h
      · exact Except.noConfusion h
      · cases h
        rw [dictGet_set_ne _ _ _ _ (Ne.symm h3), dictGet_set_ne _ _ _ _ (Ne.symm h2),
          dictGet_set_ne _ _ _ _ (Ne.symm h1)]

theorem transform_ok_elim (lk : String → Option String) (now : DateTime) (a t : Dict)
    (logs : List String) (h : transform_news_article lk now a = .ok (t, logs)) :
    ∃ cn, firstCountryElem a = .ok cn ∧ logs = (isoOf lk cn).2 ∧
      ((flattenGuard a = false ∧ t = dictPop (baseRecord lk now a cn) "sentiment_stats") ∨
       (flattenGuard a = true ∧ ∃ kvs b,
          dictGetD a "sentiment_stats" (.dict []) = .dict kvs ∧
          setScores kvs (baseRecord lk now a cn) = .ok b ∧
          t = dictPop b "sentiment_stats")) := by
  unfold transform_news_article at h
  cases hfc : firstCountryElem a with
  | error e =>
    rw [hfc] at h
    exact Except.noConfusion h
  | ok cn =>
    rw [hfc] at h
    dsimp only at h
    have hstats : dictGetD (baseRecord lk now a cn) "sentiment_stats" (.dict []) =
        dictGetD a "sentiment_stats" (.dict []) := by
      unfold dictGetD
      rw [baseRecord_get_ne lk now a cn _ (by decide) (by decide) (by decide)]
    rw [hstats] at h
    refine ⟨cn, rfl, ?_⟩
    split at h
    · exact Except.noConfusion h
    · rename_i a4 heq
      cases h
      refine ⟨rfl, ?_⟩
      split at heq
      · rename_i hguard
        have hg : flattenGuard a = true := hguard
        split at heq
        · rename_i kvs hkvs
          exact Or.inr ⟨hg, kvs, a4, hkvs, heq, rfl⟩
        · exact Except.noConfusion heq
      · rename_i hguard
        have hg : flattenGuard a = false := Bool.eq_false_iff.mpr hguard
        cases heq
        exact Or.inl ⟨hg, rfl⟩

/-- Frame helper: a successful transform leaves every field outside
`transformKeys` untouched. -/
theorem transform_get_ne (lk : String → Option String) (now : DateTime) (a t : Dict)
    (logs : List String) (k : String)
    (h : transform_news_article lk now a = .ok (t, logs)) (hk : k ∉ transformKeys) :
    dictGet t k = dictGet a k := by
  simp only [transformKeys, List.mem_cons, List.not_mem_nil, or_false, not_or] at hk
  obtain ⟨n1, n2, n3, n4, n5, n6, n7⟩ := hk
  obtain ⟨cn, hfc, hlogs, hcase⟩ := transform_ok_elim lk now a t logs h
  rcases hcase with ⟨hg, ht⟩ | ⟨hg, kvs, b, hkvs, hsc, ht⟩
  · subst ht
    rw [dictGet_pop_ne _ _ _ (Ne.symm n4), baseRecord_get_ne lk now a cn k n3 n2 n1]
  · subst ht
    rw [dictGet_pop_ne _ _ _ (Ne.symm n4), setScores_get_ne kvs _ b k hsc n5 n6 n7,
      baseRecord_get_ne lk now a cn k n3 n2 n1]

/-- A successful transform never returns a record with a `sentiment_stats`
binding. -/
theorem transform_no_stats (lk : String → Option String) (now : DateTime) (a t : Dict)
    (logs : List String) (h : transform_news_article lk now a = .ok (t, logs)) :
    dictGet t "sentiment_stats" = none := by
  obtain ⟨cn, hfc, hlogs, hcase⟩ := transform_ok_elim lk now a t logs h
  rcases hcase with ⟨hg, ht⟩ | ⟨hg, kvs, b, hkvs, hsc, ht⟩ <;>
    (subst ht; exact dictGet_pop_self _ _)

theorem daysInMonth_le (y m : Nat) : daysInMonth y m ≤ 31 := by
  unfold daysInMonth
  split_ifs <;> omega

theorem strptime_valid (s : String) (t : DateTime) (h : datetime_strptime s = some t) :
    t.valid := by
  unfold datetime_strptime at h
  repeat' split at h
  all_goals try exact Option.noConfusion h
  rename_i hg
  cases h
  obtain ⟨-, -, -, hmo, -, hd, hh, hmi, hs⟩ := hg
  exact ⟨hmo, le_trans hd (daysInMonth_le _ _), hh, hmi, hs⟩

theorem lt_iff_key (a b : DateTime) (ha : a.valid) (hb : b.valid) :
    DateTime.lt a b = true ↔ a.key < b.key := by
  obtain ⟨ha1, ha2, ha3, ha4, ha5⟩ := ha
  obtain ⟨hb1, hb2, hb3, hb4, hb5⟩ := hb
  simp only [DateTime.lt, decide_eq_true_eq, DateTime.key]
  omega

theorem trackDate_ok (s : RunState) (t : Dict) (s2 : RunState)
    (h : trackDate s t = .ok s2) :
    s2.total = s.total ∧ s2.logs = s.logs ∧
      s2.earliest = stepEarliest s.earliest (articleDate t) := by
  unfold trackDate at h
  by_cases htr : truthy (dictGetD t "pubDate" Value.null) = true
  case pos =>
    cases hv : dictGetD t "pubDate" Value.null with
    | str ds =>
      rw [hv] at htr h
      rw [if_pos htr] at h
      cases hp : datetime_strptime ds with
      | some d =>
        simp only [hp] at h
        rw [Except.ok.injEq] at h
        subst h
        have hne : ds.isEmpty = false := by
          simpa [truthy] using htr
        have hart : articleDate t = some d := by
          unfold articleDate
          rw [hv]
          simp [hne, hp]
        rw [hart]
        cases hse : s.earliest with
        | none => simp [stepEarliest, hse]
        | some e =>
          by_cases hlt : DateTime.lt d e = true <;>
            simp [stepEarliest, hse, hlt]
      | none =>
        simp only [hp] at h
        exact Except.noConfusion h
    | null =>
      rw [hv] at htr h
      rw [if_pos htr] at h
      exact Except.noConfusion h
    | num q =>
      rw [hv] at htr h
      rw [if_pos htr] at h
      exact Except.noConfusion h
    | list vs =>
      rw [hv] at htr h
      rw [if_pos htr] at h
      exact Except.noConfusion h
    | dict kvs =>
      rw [hv] at htr h
      rw [if_pos htr] at h
      exact Except.noConfusion h
    | date d =>
      rw [hv] at htr h
      rw [if_pos htr] at h
      exact Except.noConfusion h
  case neg =>
    rw [if_neg htr] at h
    cases h
    have hart : articleDate t = none := by
      unfold articleDate
      cases hv : dictGetD t "pubDate" Value.null <;> simp_all [truthy]
    rw [hart]
    exact ⟨rfl, rfl, rfl⟩

theorem processArticle_ok (env : Env) (s : RunState) (a : Dict) (s2 : RunState)
    (h : processArticle env s a = .ok s2) :
    s2.total = s.total + 1 ∧ s2.earliest = stepEarliest s.earliest (articleDate a) := by
  unfold processArticle at h
  cases hT : transform_news_article env.generalLookup env.now a with
  | error e => rw [hT] at h; exact Except.noConfusion h
  | ok p =>
    obtain ⟨t, tlogs⟩ := p
    rw [hT] at h
    dsimp only at h
    cases hI : index_document env.elastic_index (env.store t) with
    | error e => rw [hI] at h; exact Except.noConfusion h
    | ok ilogs =>
      rw [hI] at h
      dsimp only at h
      cases hTr : trackDate { s with logs := s.logs ++ tlogs ++ ilogs } t with
      | error e => rw [hTr] at h; exact Except.noConfusion h
      | ok s3 =>
        rw [hTr] at h
        dsimp only at h
        rw [Except.ok.injEq] at h
        subst h
        obtain ⟨ht1, ht2, ht3⟩ := trackDate_ok _ _ _ hTr
        have hpd : articleDate t = articleDate a := by
          unfold articleDate dictGetD
          rw [transform_get_ne env.generalLookup env.now a t tlogs "pubDate" hT (by decide)]
        refine ⟨by simp [ht1], by simp [ht3, hpd]⟩

theorem processArticles_ok (env : Env) (vs : List Value) : ∀ (s s2 : RunState),
    processArticles env s vs = .ok s2 →
    s2.total = s.total + vs.length ∧
      s2.earliest = foldEarliest s.earliest (vs.filterMap valueDate) := by
  induction vs with
  | nil =>
    intro s s2 h
    cases h
    simp [foldEarliest]
  | cons v rest ih =>
    intro s s2 h
    unfold processArticles at h
    cases v with
    | dict a =>
      dsimp only at h
      cases hA : processArticle env s a with
      | error e => rw [hA] at h; exact Except.noConfusion h
      | ok s1 =>
        rw [hA] at h
        dsimp only at h
        obtain ⟨h1, h2⟩ := processArticle_ok env s a s1 hA
        obtain ⟨h3, h4⟩ := ih s1 s2 h
        constructor
        · rw [h3, h1]
          simp [List.length_cons]
          omega
        · rw [h4, h2]
          cases hd : articleDate a with
          | none => simp [List.filterMap_cons, valueDate, hd, stepEarliest, foldEarliest]
          | some d => simp [List.filterMap_cons, valueDate, hd, foldEarliest, stepEarliest]
    | null => exact Except.noConfusion h
    | str s1 => exact Except.noConfusion h
    | num q => exact Except.noConfusion h
    | list vs1 => exact Except.noConfusion h
    | date d => exact Except.noConfusion h

theorem processPage_ok (env : Env) (s : RunState) (p : Dict) (s2 : RunState)
    (h : processPage env s p = .ok s2) :
    s2.total = s.total + (pageArticles p).length ∧
      s2.earliest = foldEarliest s.earliest ((pageArticles p).filterMap valueDate) := by
  unfold processPage at h
  by_cases hss : successStatus p = true
  · rw [if_pos hss] at h
    dsimp only at h
    by_cases hta : truthy (dictGetD p "results" (.list [])) = false
    · rw [if_pos hta] at h
      rw [Except.ok.injEq] at h
      subst h
      have hpa : pageArticles p = [] := by
        unfold pageArticles
        rw [if_pos hss]
        cases hv : dictGetD p "results" (Value.list []) <;> simp_all [truthy]
      simp [hpa, foldEarliest]
    · rw [if_neg hta] at h
      cases hv : dictGetD p "results" (Value.list []) with
      | list vs =>
        rw [hv] at h
        dsimp only at h
        obtain ⟨h1, h2⟩ := processArticles_ok env vs s s2 h
        have hpa : pageArticles p = vs := by
          unfold pageArticles
          rw [if_pos hss, hv]
        rw [hpa]
        exact ⟨h1, h2⟩
      | str s1 => rw [hv] at h; exact Except.noConfusion h
      | dict kvs => rw [hv] at h; exact Except.noConfusion h
      | null => rw [hv] at h; exact Except.noConfusion h
      | num q => rw [hv] at h; exact Except.noConfusion h
      | date d => rw [hv] at h; exact Except.noConfusion h
  · rw [if_neg hss] at h
    rw [Except.ok.injEq] at h
    subst h
    have hpa : pageArticles p = [] := by
      unfold pageArticles
      rw [if_neg hss]
    simp [hpa, foldEarliest]

theorem foldEarliest_append (acc : Option DateTime) (xs ys : List DateTime) :
    foldEarliest acc (xs ++ ys) = foldEarliest (foldEarliest acc xs) ys := by
  simp [foldEarliest, List.foldl_append]

theorem processPages_ok (env : Env) (ps : List Dict) : ∀ (s s2 : RunState),
    processPages env s ps = .ok s2 →
    s2.total = s.total + countArticles ps ∧
      s2.earliest = foldEarliest s.earliest (pagesDates ps) := by
  induction ps with
  | nil =>
    intro s s2 h
    cases h
    simp [countArticles, pagesDates, foldEarliest]
  | cons p rest ih =>
    intro s s2 h
    unfold processPages at h
    cases hP : processPage env s p with
    | error e => rw [hP] at h; exact Except.noConfusion h
    | ok s1 =>
      rw [hP] at h
      dsimp only at h
      obtain ⟨h1, h2⟩ := processPage_ok env s p s1 hP
      obtain ⟨h3, h4⟩ := ih s1 s2 h
      constructor
      · rw [h3, h1]
        simp [countArticles, List.map_cons, List.sum_cons]
        omega
      · rw [h4, h2]
        simp only [pagesDates, List.map_cons, List.flatten_cons]
        rw [foldEarliest_append]

theorem processPages_append (env : Env) (xs ys : List Dict) : ∀ (s : RunState),
    processPages env s (xs ++ ys) =
      match processPages env s xs with
      | .error e => .error e
      | .ok s1 => processPages env s1 ys := by
  induction xs with
  | nil => intro s; rfl
  | cons p rest ih =>
    intro s
    have e1 : processPages env s ((p :: rest) ++ ys) =
        match processPage env s p with
        | .error e => .error e
        | .ok s1 => processPages env s1 (rest ++ ys) := rfl
    have e2 : processPages env s (p :: rest) =
        match processPage env s p with
        | .error e => .error e
        | .ok s1 => processPages env s1 rest := rfl
    rw [e1, e2]
    cases hP : processPage env s p with
    | error e => rfl
    | ok s1 =>
      dsimp only
      exact ih s1

theorem pagesDates_valid (ps : List Dict) : ∀ d ∈ pagesDates ps, d.valid := by
  intro d hd
  simp only [pagesDates, List.mem_flatten, List.mem_map] at hd
  obtain ⟨l, ⟨p, hp, rfl⟩, hdl⟩ := hd
  simp only [List.mem_filterMap] at hdl
  obtain ⟨v, hv, hvd⟩ := hdl
  cases v with
  | dict a =>
    simp only [valueDate] at hvd
    unfold articleDate at hvd
    cases hpv : dictGetD a "pubDate" Value.null <;> rw [hpv] at hvd <;>
      dsimp only at hvd <;> try exact Option.noConfusion hvd
    case str ds =>
      by_cases he : ds.isEmpty = true
      · rw [if_pos he] at hvd
        exact Option.noConfusion hvd
      · rw [if_neg he] at hvd
        exact strptime_valid ds d hvd
  | null => exact Option.noConfusion hvd
  | str s1 => exact Option.noConfusion hvd
  | num q => exact Option.noConfusion hvd
  | list vs => exact Option.noConfusion hvd
  | date d1 => exact Option.noConfusion hvd

theorem foldEarliest_aux (ds : List DateTime) : ∀ (acc : Option DateTime),
    (∀ d ∈ ds, d.valid) → (∀ e, acc = some e → e.valid) →
    ((foldEarliest acc ds = none ↔ acc = none ∧ ds = []) ∧
     (∀ m, foldEarliest acc ds = some m → m.valid ∧ (acc = some m ∨ m ∈ ds) ∧
        (∀ e, acc = some e → m.key ≤ e.key) ∧ (∀ d ∈ ds, m.key ≤ d.key))) := by
  induction ds with
  | nil =>
    intro acc hv hacc
    refine ⟨by simp [foldEarliest], ?_⟩
    intro m hm
    simp only [foldEarliest, List.foldl_nil] at hm
    refine ⟨hacc m hm, Or.inl hm, ?_, by simp⟩
    intro e he
    rw [he] at hm
    cases hm
    exact le_refl _
  | cons d rest ih =>
    intro acc hv hacc
    have hd : d.valid := hv d (List.mem_cons_self d rest)
    have hrest : ∀ x ∈ rest, x.valid := fun x hx => hv x (List.mem_cons_of_mem d hx)
    have hstep : ∃ x, stepEarliest acc (some d) = some x ∧ x.valid ∧ x.key ≤ d.key ∧
        (x = d ∨ acc = some x) ∧ (∀ e, acc = some e → x.key ≤ e.key) := by
      cases hc : acc with
      | none =>
        refine ⟨d, by simp [stepEarliest], hd, le_refl _, Or.inl rfl, ?_⟩
        intro e he
        exact Option.noConfusion he
      | some e =>
        have he : e.valid := hacc e hc
        by_cases hlt : DateTime.lt d e = true
        · refine ⟨d, by simp [stepEarliest, hlt], hd, le_refl _, Or.inl rfl, ?_⟩
          intro e2 he2
          cases he2
          exact le_of_lt ((lt_iff_key d e hd he).mp hlt)
        · refine ⟨e, by simp [stepEarliest, hlt], he, ?_, Or.inr rfl, ?_⟩
          · have h2 : ¬ (d.key < e.key) := fun hk => hlt ((lt_iff_key d e hd he).mpr hk)
            omega
          · intro e2 he2
            cases he2
            exact le_refl _
    obtain ⟨x, hx, hxv, hxd, hxmem, hxacc⟩ := hstep
    have haccV : ∀ e, stepEarliest acc (some d) = some e → e.valid := by
      intro e he
      rw [hx] at he
      cases he
      exact hxv
    obtain ⟨ihn, ihs⟩ := ih (stepEarliest acc (some d)) hrest haccV
    have hfe : foldEarliest acc (d :: rest) = foldEarliest (stepEarliest acc (some d)) rest := rfl
    constructor
    · rw [hfe, ihn]
      simp [hx]
    · intro m hm
      rw [hfe] at hm
      obtain ⟨hmv, hmmem, hmacc, hmrest⟩ := ihs m hm
      have hmx : m.key ≤ x.key := hmacc x hx
      refine ⟨hmv, ?_, ?_, ?_⟩
      · rcases hmmem with hm1 | hm2
        · rw [hx] at hm1
          injection hm1 with hm1
          subst hm1
          rcases hxmem with h3 | h3
          · subst h3
            exact Or.inr (List.mem_cons_self _ _)
          · exact Or.inl h3
        · exact Or.inr (List.mem_cons_of_mem d hm2)
      · intro e he
        exact le_trans hmx (hxacc e he)
      · intro d2 hd2
        rcases List.mem_cons.mp hd2 with h3 | h3
        · subst h3
          exact le_trans hmx hxd
        · exact hmrest d2 h3

theorem foldEarliest_min (ds : List DateTime) (hv : ∀ d ∈ ds, d.valid) :
    (foldEarliest none ds = none ↔ ds = []) ∧
    (∀ m, foldEarliest none ds = some m → m ∈ ds ∧ ∀ d ∈ ds, m.key ≤ d.key) := by
  obtain ⟨h1, h2⟩ := foldEarliest_aux ds none hv (fun e he => Option.noConfusion he)
  constructor
  · rw [h1]
    simp
  · intro m hm
    obtain ⟨-, hmem, -, hrest⟩ := h2 m hm
    rcases hmem with h3 | h3
    · exact absurd h3 (by simp)
    · exact ⟨h3, hrest⟩

/-! ### Concrete fixtures for witnesses and counterexamples -/

/-- A general country lookup that never matches. -/
def lookupNone : String → Option String := fun _ => none

def nowW : DateTime := ⟨2024, 5, 13, 12, 0, 0⟩

/-- A run environment whose store always succeeds. -/
def envW : Env :=
  { generalLookup := lookupNone, now := nowW,
    elastic_index := "bytesview_news", store := fun _ => StoreOutcome.ok }

/-! ### Claims -/

/-- Claim C7: `get_iso_code` lower-cases its input and consults the static
override table before the general lookup, so `"Ivory Coast"` resolves to
`CI` regardless of the general lookup; a name matched by neither source
yields `none` together with a logged warning, never an error. -/
theorem C7_resolver_order :
    (∀ generalLookup : String → Option String,
      get_iso_code generalLookup (.str "Ivory Coast") = (some "CI", [])) ∧
    (∀ (generalLookup : String → Option String) (name : String),
      lookupFallback (str_lower name) = none →
      generalLookup (str_lower name) = none →
      get_iso_code generalLookup (.str name) =
        (none, ["Could not find ISO code for country: \x27" ++ name ++ "\x27"])) := by
  constructor
  · intro lk
    rfl
  · intro lk name h1 h2
    unfold get_iso_code
    dsimp only
    rw [h1, h2]

theorem C7_witness :
    lookupFallback (str_lower "Wakanda") = none ∧
    lookupNone (str_lower "Wakanda") = none ∧
    get_iso_code lookupNone (.str "Wakanda") =
      (none, ["Could not find ISO code for country: \x27" ++ "Wakanda" ++ "\x27"]) :=
  ⟨rfl, rfl, C7_resolver_order.2 lookupNone "Wakanda" rfl rfl⟩

/-- Claim C8: a record returned by `transform_news_article` never contains
`sentiment_stats`, and every field outside the written/removed set
(`country`, `country_code`, `dateandtime`, `sentiment_stats` and the three
`sentiment_score_*` fields) keeps its input value. -/
theorem C8_frame (generalLookup : String → Option String) (now : DateTime)
    (a t : Dict) (logs : List String)
    (h : transform_news_article generalLookup now a = .ok (t, logs)) :
    dictGet t "sentiment_stats" = none ∧
    ∀ k, k ∉ transformKeys → dictGet t k = dictGet a k :=
  ⟨transform_no_stats generalLookup now a t logs h,
   fun k hk => transform_get_ne generalLookup now a t logs k h hk⟩

def aW8 : Dict := [("sentiment_stats", Value.dict []), ("author", Value.str "bob")]

def tW8 : Dict :=
  [("author", Value.str "bob"), ("dateandtime", Value.date nowW),
   ("country_code", Value.null), ("country", Value.null)]

theorem C8_witness :
    transform_news_article lookupNone nowW aW8 = .ok (tW8, []) ∧
    (dictGet tW8 "sentiment_stats" = none ∧
     ∀ k, k ∉ transformKeys → dictGet tW8 k = dictGet aW8 k) :=
  ⟨rfl, C8_frame lookupNone nowW aW8 tW8 [] rfl⟩

/-- Claim C10: when the input article has no `country` field at all, the
transformed record still binds `country` and `country_code`, both to `None`,
and a `dateandtime` field is added; an absent country does not stay absent. -/
theorem C10_absent_country (generalLookup : String → Option String) (now : DateTime)
    (a t : Dict) (logs : List String)
    (hc : dictGet a "country" = none)
    (h : transform_news_article generalLookup now a = .ok (t, logs)) :
    dictGet t "country" = some Value.null ∧
    dictGet t "country_code" = some Value.null ∧
    dictGet t "dateandtime" = some (Value.date now) := by
  have hfc : firstCountryElem a = .ok Value.null := by
    unfold firstCountryElem dictGetD
    rw [hc]
    rfl
  obtain ⟨cn, hfc2, hlogs, hcase⟩ := transform_ok_elim generalLookup now a t logs h
  rw [hfc] at hfc2
  injection hfc2 with hcn
  subst hcn
  have hb1 : dictGet (baseRecord generalLookup now a Value.null) "country" = some Value.null := by
    unfold baseRecord
    rw [dictGet_set_self]
  have hb2 : dictGet (baseRecord generalLookup now a Value.null) "country_code" =
      some Value.null := by
    unfold baseRecord
    rw [dictGet_set_ne _ _ _ _ (by decide), dictGet_set_self]
    rfl
  have hb3 : dictGet (baseRecord generalLookup now a Value.null) "dateandtime" =
      some (Value.date now) := by
    unfold baseRecord
    rw [dictGet_set_ne _ _ _ _ (by decide), dictGet_set_ne _ _ _ _ (by decide),
      dictGet_set_self]
  rcases hcase with ⟨hg, ht⟩ | ⟨hg, kvs, b, hkvs, hsc, ht⟩
  · subst ht
    refine ⟨?_, ?_, ?_⟩ <;> rw [dictGet_pop_ne _ _ _ (by decide)]
    · exact hb1
    · exact hb2
    · exact hb3
  · subst ht
    refine ⟨?_, ?_, ?_⟩ <;>
      rw [dictGet_pop_ne _ _ _ (by decide),
        setScores_get_ne kvs _ b _ hsc (by decide) (by decide) (by decide)]
    · exact hb1
    · exact hb2
    · exact hb3

def aW10 : Dict := [("title", Value.str "t")]

def tW10 : Dict :=
  [("title", Value.str "t"), ("dateandtime", Value.date nowW),
   ("country_code", Value.null), ("country", Value.null)]

theorem C10_witness :
    dictGet aW10 "country" = none ∧
    transform_news_article lookupNone nowW aW10 = .ok (tW10, []) ∧
    (dictGet tW10 "country" = some Value.null ∧
     dictGet tW10 "country_code" = some Value.null ∧
     dictGet tW10 "dateandtime" = some (Value.date nowW)) :=
  ⟨rfl, rfl, C10_absent_country lookupNone nowW aW10 tW10 [] rfl rfl⟩

/-- Claim C3: a yielded page whose status is not success only logs the
failure — no article of it is transformed or stored, the state (counter,
earliest date) is unchanged, nothing is raised — and processing continues
with the next page. -/
theorem C3_failed_page (env : Env) (s : RunState) (p : Dict) (rest : List Dict)
    (h : successStatus p = false) :
    processPage env s p =
      .ok { s with logs := s.logs ++ ["API response indicated failure."] } ∧
    processPages env s (p :: rest) =
      processPages env { s with logs := s.logs ++ ["API response indicated failure."] } rest := by
  have h1 : processPage env s p =
      .ok { s with logs := s.logs ++ ["API response indicated failure."] } := by
    unfold processPage
    rw [if_neg (by simp [h])]
  refine ⟨h1, ?_⟩
  have e1 : processPages env s (p :: rest) =
      match processPage env s p with
      | .error e => .error e
      | .ok s1 => processPages env s1 rest := rfl
  rw [e1, h1]

def pFailW : Dict := [("status", Value.str "error"), ("results", Value.dict [])]

theorem C3_witness :
    successStatus pFailW = false ∧
    (processPage envW initialRunState pFailW =
      .ok { initialRunState with
            logs := initialRunState.logs ++ ["API response indicated failure."] } ∧
     processPages envW initialRunState [pFailW] =
      processPages envW
        { initialRunState with
          logs := initialRunState.logs ++ ["API response indicated failure."] } []) :=
  ⟨rfl, C3_failed_page envW initialRunState pFailW [] rfl⟩

/-- Claim C2 counterexample: the claim allows a country key bound to an
empty list, but `article.get('country', [None])[0]` then raises
`IndexError`, so `transform` is not total on such inputs. -/
theorem C2_counterexample :
    transform_news_article lookupNone nowW [("country", Value.list [])] =
      .error "IndexError: list index out of range" := rfl

/-- Claim C2 (amended): `transform` returns without raising for every
article whose optional fields (country, sentiment, sentiment_stats) are
absent; but a country key bound to an empty list raises `IndexError`. -/
theorem C2_total_amended (generalLookup : String → Option String) (now : DateTime)
    (a : Dict)
    (hc : dictGet a "country" = none)
    (hs : dictGet a "sentiment" = none)
    (hst : dictGet a "sentiment_stats" = none) :
    (∃ t logs, transform_news_article generalLookup now a = .ok (t, logs)) ∧
    (∀ b : Dict, dictGet b "country" = some (Value.list []) →
      transform_news_article generalLookup now b =
        .error "IndexError: list index out of range") := by
  constructor
  · have hfc : firstCountryElem a = .ok Value.null := by
      unfold firstCountryElem dictGetD
      rw [hc]
      rfl
    have hsent : dictGetD a "sentiment" Value.null = Value.null := by
      unfold dictGetD
      rw [hs]
      rfl
    refine ⟨dictPop (baseRecord generalLookup now a Value.null) "sentiment_stats",
      (isoOf generalLookup Value.null).2, ?_⟩
    unfold transform_news_article
    rw [hfc]
    dsimp only
    rw [hsent]
    simp [truthy]
  · intro b hb
    have hfcb : firstCountryElem b = .error "IndexError: list index out of range" := by
      unfold firstCountryElem dictGetD
      rw [hb]
      rfl
    unfold transform_news_article
    rw [hfcb]

def aW2 : Dict := [("title", Value.str "x")]

theorem C2_witness :
    dictGet aW2 "country" = none ∧ dictGet aW2 "sentiment" = none ∧
    dictGet aW2 "sentiment_stats" = none ∧
    ((∃ t logs, transform_news_article lookupNone nowW aW2 = .ok (t, logs)) ∧
     (∀ b : Dict, dictGet b "country" = some (Value.list []) →
       transform_news_article lookupNone nowW b =
         .error "IndexError: list index out of range")) :=
  ⟨rfl, rfl, rfl, C2_total_amended lookupNone nowW aW2 rfl rfl rfl⟩

/-- Helper: a successful `roundScore` came from a numeric value. -/
theorem roundScore_ok (v : Value) (q : ℚ) (h : roundScore v = .ok q) :
    ∃ q0, v = .num q0 ∧ q = roundTo4 q0 := by
  cases v <;> simp [roundScore] at h
  exact ⟨_, rfl, h.symm⟩

/-- Helper: the concrete rounding fact of the spec,
`round(0.123456, 4) = 0.1235`. -/
theorem roundTo4_spec_example : roundTo4 (123456/1000000 : ℚ) = 1235/10000 := by
  have hq : ((123456 : ℚ)/1000000 * 10000) = 30864/25 := by norm_num
  have hf : Int.floor ((30864 : ℚ)/25) = 1234 := by
    rw [Int.floor_eq_iff]
    constructor <;> norm_num
  unfold roundTo4 roundHalfEven
  rw [hq, hf]
  norm_num

/-- Claim C5 counterexample: label `positive` and a `sentiment_stats`
mapping that is present but empty — the claim requires the three flattened
fields (each 0.0), but the code's truthiness guard skips flattening. -/
theorem C5_counterexample :
    ∃ t, transform_news_article lookupNone nowW
        [("sentiment", Value.str "positive"), ("sentiment_stats", Value.dict [])] =
        .ok (t, []) ∧
      dictGet [("sentiment", Value.str "positive"), ("sentiment_stats", Value.dict [])]
        "sentiment_stats" = some (Value.dict []) ∧
      Value.eqStr (dictGetD [("sentiment", Value.str "positive"),
        ("sentiment_stats", Value.dict [])] "sentiment" Value.null) "positive" = true ∧
      dictGet t "sentiment_score_positive" = none ∧
      dictGet t "sentiment_score_negative" = none ∧
      dictGet t "sentiment_score_neutral" = none :=
  ⟨_, rfl, rfl, rfl, rfl, rfl, rfl⟩

/-- Claim C5 (amended): the flattened fields are added iff the label is one
of the three categories AND the stats mapping is truthy (present and
non-empty); when added, each field is the mapping's value for its key
(default 0.0), rounded to 4 decimal places — and 0.123456 rounds to 0.1235. -/
theorem C5_flatten_amended (generalLookup : String → Option String) (now : DateTime)
    (a t : Dict) (logs : List String)
    (h : transform_news_article generalLookup now a = .ok (t, logs)) :
    (flattenGuard a = true →
      ∃ kvs, dictGetD a "sentiment_stats" (.dict []) = .dict kvs ∧
        ∃ qp qn qu,
          dictGetD kvs "positive" (.num 0) = .num qp ∧
          dictGetD kvs "negative" (.num 0) = .num qn ∧
          dictGetD kvs "neutral" (.num 0) = .num qu ∧
          dictGet t "sentiment_score_positive" = some (.num (roundTo4 qp)) ∧
          dictGet t "sentiment_score_negative" = some (.num (roundTo4 qn)) ∧
          dictGet t "sentiment_score_neutral" = some (.num (roundTo4 qu))) ∧
    (flattenGuard a = false →
      dictGet t "sentiment_score_positive" = dictGet a "sentiment_score_positive" ∧
      dictGet t "sentiment_score_negative" = dictGet a "sentiment_score_negative" ∧
      dictGet t "sentiment_score_neutral" = dictGet a "sentiment_score_neutral") ∧
    roundTo4 (123456/1000000 : ℚ) = 1235/10000 := by
  obtain ⟨cn, hfc, hlogs, hcase⟩ := transform_ok_elim generalLookup now a t logs h
  refine ⟨?_, ?_, roundTo4_spec_example⟩
  · intro hg
    rcases hcase with ⟨hg2, ht⟩ | ⟨hg2, kvs, b, hkvs, hsc, ht⟩
    · rw [hg] at hg2
      exact Bool.noConfusion hg2
    · refine ⟨kvs, hkvs, ?_⟩
      unfold setScores at hsc
      cases hp : roundScore (dictGetD kvs "positive" (Value.num 0)) with
      | error e => rw [hp] at hsc; exact Except.noConfusion hsc
      | ok p =>
        rw [hp] at hsc
        dsimp only at hsc
        cases hn : roundScore (dictGetD kvs "negative" (Value.num 0)) with
        | error e => rw [hn] at hsc; exact Except.noConfusion hsc
        | ok n =>
          rw [hn] at hsc
          dsimp only at hsc
          cases hu : roundScore (dictGetD kvs "neutral" (Value.num 0)) with
          | error e => rw [hu] at hsc; exact Except.noConfusion hsc
          | ok u =>
            rw [hu] at hsc
            dsimp only at hsc
            rw [Except.ok.injEq] at hsc
            obtain ⟨qp, hvp, hqp⟩ := roundScore_ok _ _ hp
            obtain ⟨qn, hvn, hqn⟩ := roundScore_ok _ _ hn
            obtain ⟨qu, hvu, hqu⟩ := roundScore_ok _ _ hu
            refine ⟨qp, qn, qu, hvp, hvn, hvu, ?_, ?_, ?_⟩ <;>
              (subst ht; rw [← hsc]; rw [dictGet_pop_ne _ _ _ (by decide)])
            · rw [dictGet_set_ne _ _ _ _ (by decide), dictGet_set_ne _ _ _ _ (by decide),
                dictGet_set_self, hqp]
            · rw [dictGet_set_ne _ _ _ _ (by decide), dictGet_set_self, hqn]
            · rw [dictGet_set_self, hqu]
  · intro hg
    rcases hcase with ⟨hg2, ht⟩ | ⟨hg2, kvs, b, hkvs, hsc, ht⟩
    · subst ht
      refine ⟨?_, ?_, ?_⟩ <;>
        rw [dictGet_pop_ne _ _ _ (by decide),
          baseRecord_get_ne generalLookup now a cn _ (by decide) (by decide) (by decide)]
    · rw [hg] at hg2
      exact Bool.noConfusion hg2

def aW5 : Dict :=
  [("sentiment", Value.str "positive"),
   ("sentiment_stats", Value.dict
     [("positive", Value.num (123456/1000000)), ("negative", Value.num (1/2)),
      ("neutral", Value.num 0)])]

def tW5 : Dict :=
  [("sentiment", Value.str "positive"), ("dateandtime", Value.date nowW),
   ("country_code", Value.null), ("country", Value.null),
   ("sentiment_score_positive", Value.num (roundTo4 (123456/1000000))),
   ("sentiment_score_negative", Value.num (roundTo4 (1/2))),
   ("sentiment_score_neutral", Value.num (roundTo4 0))]

theorem C5_witness :
    transform_news_article lookupNone nowW aW5 = .ok (tW5, []) ∧
    flattenGuard aW5 = true ∧
    ((flattenGuard aW5 = true →
      ∃ kvs, dictGetD aW5 "sentiment_stats" (.dict []) = .dict kvs ∧
        ∃ qp qn qu,
          dictGetD kvs "positive" (.num 0) = .num qp ∧
          dictGetD kvs "negative" (.num 0) = .num qn ∧
          dictGetD kvs "neutral" (.num 0) = .num qu ∧
          dictGet tW5 "sentiment_score_positive" = some (.num (roundTo4 qp)) ∧
          dictGet tW5 "sentiment_score_negative" = some (.num (roundTo4 qn)) ∧
          dictGet tW5 "sentiment_score_neutral" = some (.num (roundTo4 qu))) ∧
     (flattenGuard aW5 = false →
      dictGet tW5 "sentiment_score_positive" = dictGet aW5 "sentiment_score_positive" ∧
      dictGet tW5 "sentiment_score_negative" = dictGet aW5 "sentiment_score_negative" ∧
      dictGet tW5 "sentiment_score_neutral" = dictGet aW5 "sentiment_score_neutral") ∧
     roundTo4 (123456/1000000 : ℚ) = 1235/10000) :=
  ⟨rfl, rfl, C5_flatten_amended lookupNone nowW aW5 tW5 [] rfl⟩

/-- Helper: with a bounded budget, as long as every consumed response is ok
and carries a truthy cursor, the generator issues one request per remaining
budget unit. -/
theorem fetch_bounded_aux (good : List Dict) (after : List ApiResult) :
    ∀ c : Nat, (∀ r ∈ good, truthyCursor r = true) →
    fetch_news_pages false (c + good.length) c (good.map ApiResult.ok ++ after) =
      (good, good.length) := by
  induction good with
  | nil =>
    intro c hv
    cases after with
    | nil => rfl
    | cons x rest =>
      show fetch_news_pages false (c + 0) c (x :: rest) = ([], 0)
      unfold fetch_news_pages
      rw [if_pos ⟨rfl, by omega⟩]
  | cons r gs ih =>
    intro c hv
    show fetch_news_pages false (c + (gs.length + 1)) c
        (ApiResult.ok r :: (gs.map ApiResult.ok ++ after)) = (r :: gs, gs.length + 1)
    unfold fetch_news_pages
    rw [if_neg (by intro hcon; omega)]
    dsimp only
    rw [if_pos (hv r (List.mem_cons_self r gs))]
    have harg : c + (gs.length + 1) = (c + 1) + gs.length := by omega
    rw [harg, ih (c + 1) (fun x hx => hv x (List.mem_cons_of_mem r hx))]

/-- Helper: with an unbounded budget, the walk yields every ok response with
a truthy cursor and the first response with a falsy cursor, then stops. -/
theorem fetch_unbounded_aux (numPages : Nat) (good : List Dict) (last : Dict)
    (after : List ApiResult) :
    ∀ c : Nat, (∀ r ∈ good, truthyCursor r = true) → truthyCursor last = false →
    fetch_news_pages true numPages c
        (good.map ApiResult.ok ++ (ApiResult.ok last :: after)) =
      (good ++ [last], good.length + 1) := by
  induction good with
  | nil =>
    intro c hv hl
    show fetch_news_pages true numPages c (ApiResult.ok last :: after) = ([last], 1)
    unfold fetch_news_pages
    rw [if_neg (by intro hcon; exact Bool.noConfusion hcon.1)]
    dsimp only
    rw [if_neg (by simp [hl])]
  | cons r gs ih =>
    intro c hv hl
    show fetch_news_pages true numPages c
        (ApiResult.ok r :: (gs.map ApiResult.ok ++ (ApiResult.ok last :: after))) =
      ((r :: gs) ++ [last], gs.length + 1 + 1)
    unfold fetch_news_pages
    rw [if_neg (by intro hcon; exact Bool.noConfusion hcon.1)]
    dsimp only
    rw [if_pos (hv r (List.mem_cons_self r gs))]
    rw [ih (c + 1) (fun x hx => hv x (List.mem_cons_of_mem r hx)) hl]
    rfl

/-- Claim C4 counterexample: with an unbounded budget, a response whose
`nextPage` is present but an empty string (falsy, not omitted) still ends
the sequence — the second scripted response is never requested. -/
theorem C4_counterexample :
    fetch_news_pages true 0 0
        [ApiResult.ok [("status", Value.str "success"), ("results", Value.list []),
           ("nextPage", Value.str "")],
         ApiResult.ok [("status", Value.str "success")]] =
      ([[("status", Value.str "success"), ("results", Value.list []),
         ("nextPage", Value.str "")]], 1) ∧
    dictGet [("status", Value.str "success"), ("results", Value.list []),
        ("nextPage", Value.str "")] "nextPage" = some (Value.str "") :=
  ⟨rfl, rfl⟩

/-- Claim C4 (amended): with a bounded budget of N, exactly N requests are
issued even when the N-th response still carries a truthy next-cursor (the
budget is checked before issuing a request); with an unbounded budget the
sequence ends exactly when a response's next-cursor field is absent or falsy
(e.g. the empty string), and that final page is yielded before it ends. -/
theorem C4_stop_rules_amended :
    (∀ (numPages : Nat) (good : List Dict) (after : List ApiResult),
      good.length = numPages →
      (∀ r ∈ good, truthyCursor r = true) →
      fetch_news_pages false numPages 0 (good.map ApiResult.ok ++ after) =
        (good, numPages)) ∧
    (∀ (numPages : Nat) (good : List Dict) (last : Dict) (after : List ApiResult),
      (∀ r ∈ good, truthyCursor r = true) → truthyCursor last = false →
      fetch_news_pages true numPages 0
          (good.map ApiResult.ok ++ (ApiResult.ok last :: after)) =
        (good ++ [last], good.length + 1)) := by
  constructor
  · intro numPages good after hlen hv
    subst hlen
    have h := fetch_bounded_aux good after 0 hv
    rw [Nat.zero_add] at h
    exact h
  · intro numPages good last after hv hl
    exact fetch_unbounded_aux numPages good last after 0 hv hl

def rCursorA : Dict :=
  [("status", Value.str "success"), ("results", Value.list []),
   ("nextPage", Value.str "a")]

def rCursorB : Dict :=
  [("status", Value.str "success"), ("results", Value.list []),
   ("nextPage", Value.str "b")]

def rNoCursor : Dict := [("status", Value.str "success"), ("results", Value.list [])]

theorem C4_witness :
    ([rCursorA, rCursorB] : List Dict).length = 2 ∧
    (∀ r ∈ [rCursorA, rCursorB], truthyCursor r = true) ∧
    truthyCursor rNoCursor = false ∧
    fetch_news_pages false 2 0
        ([rCursorA, rCursorB].map ApiResult.ok ++ [ApiResult.ok rNoCursor]) =
      ([rCursorA, rCursorB], 2) ∧
    fetch_news_pages true 0 0
        ([rCursorA].map ApiResult.ok ++ (ApiResult.ok rNoCursor :: [ApiResult.err "late"])) =
      ([rCursorA] ++ [rNoCursor], 1 + 1) := by
  refine ⟨rfl, ?_, rfl, ?_, ?_⟩
  · intro r hr
    fin_cases hr <;> rfl
  · exact C4_stop_rules_amended.1 2 [rCursorA, rCursorB] [ApiResult.ok rNoCursor] rfl
      (by intro r hr; fin_cases hr <;> rfl)
  · exact C4_stop_rules_amended.2 0 [rCursorA] rNoCursor [ApiResult.err "late"]
      (by intro r hr; fin_cases hr; rfl) rfl

/-- Claim C6 counterexample: the `except` clause of `index_document` catches
only `ApiError`; a transport-level failure (e.g. a connection error raised
by the client) propagates past the sink's boundary instead of being logged
and returned normally. -/
theorem C6_counterexample :
    index_document "bytesview_news"
        (StoreOutcome.otherError "ConnectionError: connection timed out") =
      .error "ConnectionError: connection timed out" := rfl

/-- Claim C6 (amended): the sink catches exactly API-level store failures:
an `ApiError` is logged with the destination index name and the call returns
normally, the failing article is still counted and the caller moves on to
the following documents; any other exception kind propagates. -/
theorem C6_sink_amended :
    (∀ index_name msg : String,
      index_document index_name (.apiError msg) =
        .ok ["Failed to index document into \x27" ++ index_name ++ "\x27: " ++ msg]) ∧
    (∀ (env : Env) (s : RunState) (a t : Dict) (tlogs : List String) (msg : String)
        (s3 : RunState),
      transform_news_article env.generalLookup env.now a = .ok (t, tlogs) →
      env.store t = .apiError msg →
      trackDate { s with logs := s.logs ++ tlogs ++
        ["Failed to index document into \x27" ++ env.elastic_index ++ "\x27: " ++ msg] } t =
        .ok s3 →
      processArticle env s a = .ok { s3 with total := s3.total + 1 }) ∧
    (∀ (env : Env) (s s1 : RunState) (a : Dict) (rest : List Value),
      processArticle env s a = .ok s1 →
      processArticles env s (Value.dict a :: rest) = processArticles env s1 rest) := by
  refine ⟨fun index_name msg => rfl, ?_, ?_⟩
  · intro env s a t tlogs msg s3 hT hstore hTr
    unfold processArticle
    rw [hT]
    dsimp only
    rw [hstore]
    dsimp only [index_document]
    rw [hTr]
  · intro env s s1 a rest hA
    have e1 : processArticles env s (Value.dict a :: rest) =
        match processArticle env s a with
        | .error e => .error e
        | .ok s2 => processArticles env s2 rest := rfl
    rw [e1, hA]

/-- An environment whose store always fails with an `ApiError`. -/
def envA : Env :=
  { generalLookup := lookupNone, now := nowW,
    elastic_index := "bytesview_news", store := fun _ => StoreOutcome.apiError "mapping error" }

def aW6 : Dict := [("title", Value.str "doc")]

def tW6 : Dict :=
  [("title", Value.str "doc"), ("dateandtime", Value.date nowW),
   ("country_code", Value.null), ("country", Value.null)]

def sW6 : RunState :=
  { total := 0, earliest := none,
    logs := ["Starting news ingestion pipeline...",
             "Failed to index document into \x27bytesview_news\x27: mapping error"] }

theorem C6_witness :
    transform_news_article envA.generalLookup envA.now aW6 = .ok (tW6, []) ∧
    envA.store tW6 = .apiError "mapping error" ∧
    trackDate { initialRunState with logs := initialRunState.logs ++ [] ++
      ["Failed to index document into \x27" ++ envA.elastic_index ++ "\x27: " ++
       "mapping error"] } tW6 = .ok sW6 ∧
    processArticle envA initialRunState aW6 = .ok { sW6 with total := sW6.total + 1 } ∧
    processArticles envA initialRunState [Value.dict aW6, Value.dict aW6] =
      processArticles envA { sW6 with total := sW6.total + 1 } [Value.dict aW6] := by
  refine ⟨rfl, rfl, rfl, ?_, ?_⟩
  · exact C6_sink_amended.2.1 envA initialRunState aW6 tW6 [] "mapping error" sW6 rfl rfl rfl
  · exact C6_sink_amended.2.2 envA initialRunState
      { sW6 with total := sW6.total + 1 } aW6 [Value.dict aW6]
      (C6_sink_amended.2.1 envA initialRunState aW6 tW6 [] "mapping error" sW6 rfl rfl rfl)

/-- Claim C1 counterexample: an article of a successful page whose
`pubDate` does not match the fixed format makes the whole run raise a
`ValueError` that propagates out of the pipeline — no parse-failure log, and
the article is not counted (no statistics are produced at all). -/
theorem C1_counterexample :
    NewsIngestionPipeline.run envW
        [[("status", Value.str "success"),
          ("results", Value.list [Value.dict [("pubDate", Value.str "13/05/2024")]])]] =
      .error "ValueError: time data does not match format" := rfl

/-- Claim C1 (amended): an article of a successful page whose transformed
record carries a truthy `pubDate` string that fails the fixed-format parse
makes `run` raise `ValueError` (there is no try/except around `strptime`):
the per-article step errors before the counter increment, a page-level error
aborts the page loop, and a loop error propagates out of `run` so no final
statistics are reported. -/
theorem C1_parse_failure_amended :
    (∀ (env : Env) (s : RunState) (a t : Dict) (tlogs ilogs : List String) (ds : String),
      transform_news_article env.generalLookup env.now a = .ok (t, tlogs) →
      index_document env.elastic_index (env.store t) = .ok ilogs →
      dictGetD t "pubDate" Value.null = Value.str ds →
      ds.isEmpty = false →
      datetime_strptime ds = none →
      processArticle env s a = .error "ValueError: time data does not match format") ∧
    (∀ (env : Env) (s : RunState) (p : Dict) (rest : List Dict) (e : String),
      processPage env s p = .error e →
      processPages env s (p :: rest) = .error e) ∧
    (∀ (env : Env) (pages : List Dict) (e : String),
      processPages env initialRunState pages = .error e →
      NewsIngestionPipeline.run env pages = .error e) := by
  refine ⟨?_, ?_, ?_⟩
  · intro env s a t tlogs ilogs ds hT hI hpv hne hparse
    unfold processArticle
    rw [hT]
    dsimp only
    rw [hI]
    dsimp only
    have htd : trackDate { s with logs := s.logs ++ tlogs ++ ilogs } t =
        .error "ValueError: time data does not match format" := by
      unfold trackDate
      rw [hpv]
      rw [if_pos (by simp [truthy, hne])]
      dsimp only
      rw [hparse]
    rw [htd]
  · intro env s p rest e hP
    have e1 : processPages env s (p :: rest) =
        match processPage env s p with
        | .error e2 => .error e2
        | .ok s1 => processPages env s1 rest := rfl
    rw [e1, hP]
  · intro env pages e h
    unfold NewsIngestionPipeline.run
    rw [h]

def aBad : Dict := [("pubDate", Value.str "13/05/2024")]

def tBad : Dict :=
  [("pubDate", Value.str "13/05/2024"), ("dateandtime", Value.date nowW),
   ("country_code", Value.null), ("country", Value.null)]

def pBad : Dict :=
  [("status", Value.str "success"), ("results", Value.list [Value.dict aBad])]

theorem C1_witness :
    transform_news_article envW.generalLookup envW.now aBad = .ok (tBad, []) ∧
    datetime_strptime "13/05/2024" = none ∧
    processArticle envW initialRunState aBad =
      .error "ValueError: time data does not match format" ∧
    NewsIngestionPipeline.run envW [pBad] =
      .error "ValueError: time data does not match format" := by
  refine ⟨rfl, rfl, ?_, ?_⟩
  · exact C1_parse_failure_amended.1 envW initialRunState aBad tBad [] [] "13/05/2024"
      rfl rfl rfl rfl rfl
  · exact C1_parse_failure_amended.2.2 envW [pBad] _ rfl

/-- Claim C9 counterexample: a completed run that recorded no publish date
reports only the finish line and the processed total — the code has no
"none found" report at all (it logs the earliest date only when one exists). -/
theorem C9_counterexample :
    NewsIngestionPipeline.run envW
        [[("status", Value.str "success"),
          ("results", Value.list [Value.dict [("title", Value.str "t")]])]] =
      .ok { total := 1, earliest := none,
            logs := ["Starting news ingestion pipeline...",
                     "News ingestion pipeline finished.",
                     "Total articles processed: 1"] } ∧
    (["Starting news ingestion pipeline...",
      "News ingestion pipeline finished.",
      "Total articles processed: 1"].all
        (fun l => !(strContains l "none found"))) = true :=
  ⟨rfl, rfl⟩

/-- Claim C9 (amended): over a completed run the processed counter is
monotonically increasing and ends at the number of articles of successful
pages; the earliest-date statistic is exactly the fold of the
predates-the-minimum update over the successfully parsed publish dates (so
it is the minimum of those dates, and `none` iff no date was parsed); on
completion the pipeline reports the total processed count, and the earliest
date only when one was recorded — nothing is reported when none was found. -/
theorem C9_run_statistics_amended (env : Env) (pages : List Dict) (s2 : RunState)
    (h : NewsIngestionPipeline.run env pages = .ok s2) :
    s2.total = countArticles pages ∧
    s2.earliest = foldEarliest none (pagesDates pages) ∧
    (∀ (ps1 ps2 : List Dict) (s1 : RunState), pages = ps1 ++ ps2 →
      processPages env initialRunState ps1 = .ok s1 → s1.total ≤ s2.total) ∧
    (s2.earliest = none ↔ pagesDates pages = []) ∧
    (∀ m, s2.earliest = some m →
      m ∈ pagesDates pages ∧ ∀ d ∈ pagesDates pages, m.key ≤ d.key) ∧
    (∃ logs1, s2.logs = logs1 ++
       ["News ingestion pipeline finished.",
        "Total articles processed: " ++ toString s2.total] ++
       earliestReport s2.earliest) := by
  unfold NewsIngestionPipeline.run at h
  cases hpp : processPages env initialRunState pages with
  | error e => rw [hpp] at h; exact Except.noConfusion h
  | ok s =>
    rw [hpp] at h
    dsimp only at h
    rw [Except.ok.injEq] at h
    subst h
    obtain ⟨h1, h2⟩ := processPages_ok env pages initialRunState s hpp
    have htot : s.total = countArticles pages := by
      rw [h1]
      simp [initialRunState]
    have hear : s.earliest = foldEarliest none (pagesDates pages) := by
      rw [h2]
      rfl
    obtain ⟨hmin1, hmin2⟩ := foldEarliest_min (pagesDates pages) (pagesDates_valid pages)
    refine ⟨htot, hear, ?_, ?_, ?_, ⟨s.logs, rfl⟩⟩
    · intro ps1 ps2 s1 hsplit hp1
      rw [hsplit] at hpp
      rw [processPages_append env ps1 ps2 initialRunState, hp1] at hpp
      dsimp only at hpp
      obtain ⟨h3, -⟩ := processPages_ok env ps2 s1 s hpp
      simp only []
      omega
    · rw [hear]
      exact hmin1
    · intro m hm
      rw [hear] at hm
      exact hmin2 m hm

def pages9 : List Dict :=
  [[("status", Value.str "success"),
    ("results", Value.list
      [Value.dict [("pubDate", Value.str "2024-05-13 10:00:00")],
       Value.dict [("pubDate", Value.str "2023-01-02 03:04:05")]])]]

theorem C9_witness : ∃ s2,
    NewsIngestionPipeline.run envW pages9 = .ok s2 ∧
    (s2.total = countArticles pages9 ∧
     s2.earliest = foldEarliest none (pagesDates pages9) ∧
     (∀ (ps1 ps2 : List Dict) (s1 : RunState), pages9 = ps1 ++ ps2 →
       processPages envW initialRunState ps1 = .ok s1 → s1.total ≤ s2.total) ∧
     (s2.earliest = none ↔ pagesDates pages9 = []) ∧
     (∀ m, s2.earliest = some m →
       m ∈ pagesDates pages9 ∧ ∀ d ∈ pagesDates pages9, m.key ≤ d.key) ∧
     (∃ logs1, s2.logs = logs1 ++
        ["News ingestion pipeline finished.",
         "Total articles processed: " ++ toString s2.total] ++
        earliestReport s2.earliest)) :=
  ⟨_, rfl, C9_run_statistics_amended envW pages9 _ rfl⟩
